import Mathlib

/-!
Shallow embedding of the reddit-trend-analyzer repository.

Sources embedded here:
* `src/trendAnalyzer.js` — the `TrendAnalyzer` class (keyword extraction,
  frequency merging, ranking, per-subreddit trends, trending score,
  emerging topics).
* `src/redditClient.js` — the `RedditClient` class (retry with backoff,
  batch post fetching).

JavaScript objects used as string-keyed dictionaries are modelled as
insertion-ordered association lists (`List (String × Nat)`), matching the
enumeration order of `Object.entries` for non-numeric string keys.
JavaScript numbers are modelled as `Nat`/`Int`/`ℚ` where the code only
performs exact arithmetic, and as `ℝ` for `Math.pow(x, 1.5)`.
`Date.now() / 1000` (the current Unix time in seconds) is passed as an
explicit `nowSec : ℚ` parameter wherever the source reads the clock.
-/

namespace TrendAnalyzer

/-- JS `\w` word characters: `[A-Za-z0-9_]` (the source text is ASCII-based;
`Char.isAlphanum` covers exactly the ASCII alphanumerics). -/
def isWordChar (c : Char) : Bool := c.isAlphanum || c = '_'

/-- One character step of `.replace(/[^\w\s]/g, ' ')`: characters that are
neither word characters nor whitespace become a space. -/
def replaceNonWord (c : Char) : Char :=
  if isWordChar c || c.isWhitespace then c else ' '

/-- Splitting on whitespace, as in `.split(/\s+/)` of the source. We split at
every whitespace character, so a run of k whitespace characters yields k-1
empty tokens where JS yields none; all empty tokens are removed by the
`length > 3` filter in `keywordTokens`, so the computed frequency map is
identical. Leading/trailing whitespace contributes an empty token in JS as
well. -/
def splitWsAux (cur : List Char) : List Char → List String
  | [] => [String.mk cur.reverse]
  | c :: cs =>
      if c.isWhitespace then String.mk cur.reverse :: splitWsAux [] cs
      else splitWsAux (c :: cur) cs

/-- Full whitespace split of a character list. -/
def splitWs (s : List Char) : List String := splitWsAux [] s

/-- The stop-word set of `TrendAnalyzer`'s constructor
(`src/trendAnalyzer.js` lines 7–23), verbatim, duplicates included. -/
def stopWords : List String :=
  ["the", "be", "to", "of", "and", "a", "in", "that", "have", "i",
   "it", "for", "not", "on", "with", "he", "as", "you", "do", "at",
   "this", "but", "his", "by", "from", "they", "we", "say", "her", "she",
   "or", "an", "will", "my", "one", "all", "would", "there", "their",
   "what", "so", "up", "out", "if", "about", "who", "get", "which", "go",
   "me", "when", "make", "can", "like", "time", "no", "just", "him", "know",
   "take", "people", "into", "year", "your", "good", "some", "could", "them",
   "see", "other", "than", "then", "now", "look", "only", "come", "its", "over",
   "think", "also", "back", "after", "use", "two", "how", "our", "work",
   "first", "well", "way", "even", "new", "want", "because", "any", "these",
   "give", "day", "most", "us", "is", "was", "are", "been", "has", "had",
   "were", "said", "did", "having", "may", "should", "am", "im", "dont",
   "doesnt", "didnt", "isnt", "arent", "wasnt", "werent", "wont", "wouldnt",
   "cant", "couldnt", "shouldnt", "ive", "youve", "theyve", "weve", "youre",
   "theyre", "were", "hes", "shes", "its", "thats", "whats", "heres", "theres"]

/-- JS `/^\d+$/.test(word)`: nonempty and consisting only of ASCII digits. -/
def isPureNumber (w : String) : Bool := !w.isEmpty && w.data.all Char.isDigit

/-- The filtered word list of `extractKeywords`
(`src/trendAnalyzer.js` lines 32–40): lower-case, replace every non-word
non-whitespace character by a space, split on whitespace, keep words of
length > 3 that are neither stop words nor purely numeric. -/
def keywordTokens (text : String) : List String :=
  (splitWs ((text.data.map Char.toLower).map replaceNonWord)).filter
    (fun word => 3 < word.length && !stopWords.contains word && !isPureNumber word)

/-- JS `frequency[word] = (frequency[word] || 0) + 1` generalised to adding
`c`: bump the count of `w` in an insertion-ordered association list, adding
a new entry at the end if absent. -/
def bump (m : List (String × Nat)) (w : String) (c : Nat) : List (String × Nat) :=
  match m with
  | [] => [(w, c)]
  | (k, v) :: rest => if k = w then (k, v + c) :: rest else (k, v) :: bump rest w c

/-- `TrendAnalyzer.extractKeywords` (`src/trendAnalyzer.js` lines 31–48):
count the surviving words into a frequency map. -/
def extractKeywords (text : String) : List (String × Nat) :=
  (keywordTokens text).foldl (fun frequency word => bump frequency word 1) []

/-- `TrendAnalyzer.mergeFrequencies` (`src/trendAnalyzer.js` lines 55–65):
`merged[word] = (merged[word] || 0) + count` over every entry of every map,
in order. -/
def mergeFrequencies (frequencyMaps : List (List (String × Nat))) : List (String × Nat) :=
  frequencyMaps.foldl (fun merged map => map.foldl (fun m p => bump m p.1 p.2) merged) []

/-- A `{ keyword, count }` record, as produced by `getTopKeywords`. -/
structure TrendEntry where
  keyword : String
  count : Nat
deriving DecidableEq, Repr

/-- Stable insertion step for sorting by count descending: the incoming
element (originally earlier in the list) is placed before the first element
whose count does not exceed its own, so elements with equal counts keep
their original relative order. -/
def insertByCountDesc (p : String × Nat) : List (String × Nat) → List (String × Nat)
  | [] => [p]
  | q :: rest =>
      if q.2 ≤ p.2 then p :: q :: rest else q :: insertByCountDesc p rest

/-- Stable sort by count descending. `Array.prototype.sort` with comparator
`(a, b) => b[1] - a[1]` is required (since ES2019) to produce exactly the
stable descending-by-count ordering, which is what this structural
insertion sort computes; the algorithm itself is unobservable. -/
def sortByCountDesc : List (String × Nat) → List (String × Nat)
  | [] => []
  | p :: rest => insertByCountDesc p (sortByCountDesc rest)

/-- `TrendAnalyzer.getTopKeywords` (`src/trendAnalyzer.js` lines 73–78):
`Object.entries(frequencies).sort((a, b) => b[1] - a[1]).slice(0, limit)`,
then wrap the pairs as `{ keyword, count }`. -/
def getTopKeywords (frequencies : List (String × Nat)) (limit : Nat) : List TrendEntry :=
  ((sortByCountDesc frequencies).take limit).map
    (fun p => { keyword := p.1, count := p.2 })

/-- JS `acc[word] = count` used by the `.reduce` rebuild step in
`analyzeTrendingKeywords`/`analyzeCommentTrends`: set (overwrite or append)
a key in an insertion-ordered association list. -/
def setKey (m : List (String × Nat)) (w : String) (c : Nat) : List (String × Nat) :=
  match m with
  | [] => [(w, c)]
  | (k, v) :: rest => if k = w then (k, c) :: rest else (k, v) :: setKey rest w c

/-- A Post record, with the exact fields pushed by
`RedditClient.fetchHotPosts` (`src/redditClient.js` lines 639–653). -/
structure Post where
  subreddit : String
  title : String
  text : String
  author : String
  score : ℤ
  upvote_ratio : ℚ
  num_comments : Nat
  created_utc : ℚ
  url : String
  permalink : String
  id : String
deriving DecidableEq, Repr

/-- A Comment record, with the fields pushed by
`RedditClient.fetchComments` (`src/redditClient.js` lines 689–698). -/
structure Comment where
  author : String
  body : String
  score : ℤ
  created_utc : ℚ
deriving DecidableEq, Repr

/-- The per-post frequency map of `analyzeTrendingKeywords`
(`src/trendAnalyzer.js` lines 87–91): merge of the title keywords and,
when `post.text` is truthy (nonempty), the body keywords. -/
def postFrequencies (post : Post) : List (String × Nat) :=
  let titleFreq := extractKeywords post.title
  let textFreq := if post.text ≠ "" then extractKeywords post.text else []
  mergeFrequencies [titleFreq, textFreq]

/-- The `.filter(...).reduce(...)` step shared by `analyzeTrendingKeywords`
and `analyzeCommentTrends`: drop entries below `minFrequency`, then rebuild
an object from the survivors with `acc[word] = count`. -/
def filterByMinFrequency (merged : List (String × Nat)) (minFrequency : Nat) :
    List (String × Nat) :=
  (merged.filter (fun p => minFrequency ≤ p.2)).foldl (fun acc p => setKey acc p.1 p.2) []

/-- `TrendAnalyzer.analyzeTrendingKeywords` (`src/trendAnalyzer.js`
lines 86–104). -/
def analyzeTrendingKeywords (posts : List Post) (minFrequency : Nat) : List TrendEntry :=
  let allFrequencies := posts.map postFrequencies
  let merged := mergeFrequencies allFrequencies
  let filtered := filterByMinFrequency merged minFrequency
  getTopKeywords filtered 30

/-- `TrendAnalyzer.analyzeCommentTrends` (`src/trendAnalyzer.js`
lines 112–128): the same pipeline applied to comment bodies only. -/
def analyzeCommentTrends (comments : List Comment) (minFrequency : Nat) : List TrendEntry :=
  let allFrequencies := comments.map (fun comment => extractKeywords comment.body)
  let merged := mergeFrequencies allFrequencies
  let filtered := filterByMinFrequency merged minFrequency
  getTopKeywords filtered 30

/-- The per-subreddit summary built by `getTrendsBySubreddit`
(`src/trendAnalyzer.js` lines 148–152). -/
structure SubredditTrend where
  postCount : Nat
  topKeywords : List TrendEntry
  avgScore : ℚ
deriving DecidableEq, Repr

/-- JS `bySubreddit[post.subreddit].push(post)` with on-demand bucket
creation: append `post` to the bucket of `key`, creating the bucket at the
end when absent. -/
def pushToGroup (acc : List (String × List Post)) (key : String) (post : Post) :
    List (String × List Post) :=
  match acc with
  | [] => [(key, [post])]
  | (k, ps) :: rest =>
      if k = key then (k, ps ++ [post]) :: rest else (k, ps) :: pushToGroup rest key post

/-- `TrendAnalyzer.getTrendsBySubreddit` (`src/trendAnalyzer.js`
lines 135–156): group posts by subreddit, then summarise each group with
`analyzeTrendingKeywords(subPosts, 2)`, the group size, and the arithmetic
mean of raw scores. -/
def getTrendsBySubreddit (posts : List Post) : List (String × SubredditTrend) :=
  let bySubreddit := posts.foldl (fun acc post => pushToGroup acc post.subreddit post) []
  bySubreddit.map (fun g =>
    let keywords := analyzeTrendingKeywords g.2 2
    (g.1,
      { postCount := g.2.length
        topKeywords := keywords.take 10
        avgScore := ((g.2.foldl (fun sum p => sum + p.score) 0 : ℤ) : ℚ) / (g.2.length : ℚ) }))

/-- `TrendAnalyzer.calculateTrendingScore` (`src/trendAnalyzer.js`
lines 163–172). `nowSec` stands for `Date.now() / 1000`;
`Math.pow(ageFactor, 1.5)` is real exponentiation with exponent `3/2`. -/
noncomputable def calculateTrendingScore (nowSec : ℚ) (post : Post) : ℝ :=
  let ageInHours : ℝ := ((nowSec : ℝ) - (post.created_utc : ℝ)) / 3600
  let ageFactor : ℝ := max 1 ageInHours
  let engagementScore : ℝ := (post.score : ℝ) + (post.num_comments : ℝ) * 2
  engagementScore / ageFactor ^ (3 / 2 : ℝ)

/-- A post together with the `trendingScore` field added (non-destructively,
`{ ...post, trendingScore }`) by `getTopTrendingPosts`. -/
structure ScoredPost where
  post : Post
  trendingScore : ℝ

/-- Stable insertion step for sorting scored posts by `trendingScore`
descending (comparator `(a, b) => b.trendingScore - a.trendingScore`). -/
noncomputable def insertByScoreDesc (p : ScoredPost) : List ScoredPost → List ScoredPost
  | [] => [p]
  | q :: rest =>
      if q.trendingScore ≤ p.trendingScore then p :: q :: rest
      else q :: insertByScoreDesc p rest

/-- Stable sort of scored posts by `trendingScore` descending. -/
noncomputable def sortByScoreDesc : List ScoredPost → List ScoredPost
  | [] => []
  | p :: rest => insertByScoreDesc p (sortByScoreDesc rest)

/-- `TrendAnalyzer.getTopTrendingPosts` (`src/trendAnalyzer.js`
lines 180–188): score every post, sort by score descending (stable), and
truncate. -/
noncomputable def getTopTrendingPosts (nowSec : ℚ) (posts : List Post) (limit : Nat) :
    List ScoredPost :=
  (sortByScoreDesc (posts.map (fun post =>
      { post := post, trendingScore := calculateTrendingScore nowSec post }))).take limit

/-- `TrendAnalyzer.getEmergingTopics` (`src/trendAnalyzer.js`
lines 196–205). `nowSec` stands for `Date.now() / 1000`. -/
def getEmergingTopics (nowSec : ℚ) (posts : List Post) (hoursThreshold : ℚ) :
    List TrendEntry :=
  let cutoffTime := nowSec - hoursThreshold * 3600
  let recentPosts := posts.filter (fun post => cutoffTime < post.created_utc)
  if recentPosts.length = 0 then []
  else (analyzeTrendingKeywords recentPosts 2).take 15

end TrendAnalyzer

namespace RedditClient

/-- The aspects of a thrown JS error inspected by
`RedditClient.retryWithBackoff` (`src/redditClient.js` lines 570–600):
`error.statusCode` (possibly absent), whether
`error.message?.includes('rate limit')` holds, and
`error.ratelimitRemaining` (possibly absent; the code treats `0` as falsy). -/
structure FetchError where
  statusCode : Option Nat
  messageHasRateLimit : Bool
  ratelimitRemaining : Option Nat
deriving DecidableEq, Repr

/-- The rate-limit test of `retryWithBackoff`:
`error.statusCode === 429 || error.message?.includes('rate limit')`. -/
def isRateLimitError (e : FetchError) : Bool :=
  e.statusCode = some 429 || e.messageHasRateLimit

/-- The server-error test of `retryWithBackoff`: `error.statusCode >= 500`
(false when `statusCode` is absent, as `undefined >= 500` is false). -/
def isServerError (e : FetchError) : Bool :=
  match e.statusCode with
  | some code => 500 ≤ code
  | none => false

/-- Outcome of `retryWithBackoff`: the awaited value, the dedicated
`Error('Rate limit exceeded. Max retries reached. ...')` thrown when the
retry budget is exhausted on a rate-limit failure, or the original error
re-thrown. -/
inductive RetryResult (α : Type) where
  | ok (value : α)
  | rateLimitExceeded
  | failed (e : FetchError)
deriving DecidableEq, Repr

/-- `RedditClient.retryWithBackoff` (`src/redditClient.js` lines 570–600).
`fn attempt` is the outcome of the `attempt`-th invocation of the retried
thunk (the thunk hits the network, so successive invocations may differ).
The result records, besides the final outcome, the list of waits (in ms,
as `ℚ` because the server-error branch multiplies the delay by 1.5) that
`await this.sleep(...)` performed between attempts. Defaults at the call
sites are `retries = maxRetries` and `delay = 2000`. -/
def retryWithBackoff {α : Type} (fn : Nat → Except FetchError α)
    (attempt retries : Nat) (delay : ℚ) : List ℚ × RetryResult α :=
  match fn attempt with
  | Except.ok v => ([], RetryResult.ok v)
  | Except.error e =>
      if isRateLimitError e then
        match retries with
        | r + 1 =>
            let waitTime : ℚ :=
              match e.ratelimitRemaining with
              | some rem => if rem = 0 then delay else (rem : ℚ) * 1000 + 1000
              | none => delay
            let rest := retryWithBackoff fn (attempt + 1) r (delay * 2)
            (waitTime :: rest.1, rest.2)
        | 0 => ([], RetryResult.rateLimitExceeded)
      else
        match retries with
        | r + 1 =>
            if isServerError e then
              let rest := retryWithBackoff fn (attempt + 1) r (delay * (3 / 2))
              (delay :: rest.1, rest.2)
            else ([], RetryResult.failed e)
        | 0 => ([], RetryResult.failed e)

/-- The raw upstream submission object, with the exact fields read by
`fetchHotPosts` when building a post record
(`src/redditClient.js` lines 639–653). `selftext` is `Option`al to model
`post.selftext || ''`. -/
structure RawPost where
  subreddit_display_name : String
  title : String
  selftext : Option String
  author_name : String
  score : ℤ
  upvote_ratio : ℚ
  num_comments : Nat
  created_utc : ℚ
  url : String
  permalink : String
  id : String
deriving DecidableEq, Repr

/-- The post record pushed by `fetchHotPosts` for one raw submission
(`src/redditClient.js` lines 640–652). -/
def normalizePost (post : RawPost) : TrendAnalyzer.Post :=
  { subreddit := post.subreddit_display_name
    title := post.title
    text := post.selftext.getD ""
    author := post.author_name
    score := post.score
    upvote_ratio := post.upvote_ratio
    num_comments := post.num_comments
    created_utc := post.created_utc
    url := post.url
    permalink := "https://reddit.com" ++ post.permalink
    id := post.id }

/-- `RedditClient.fetchHotPosts` (`src/redditClient.js` lines 626–668).
`fetch subreddit attempt` is the outcome of the `attempt`-th upstream call
for that subreddit (the body wrapped in `retryWithBackoff`). Each source is
fetched through `retryWithBackoff` with the default initial delay of
2000 ms; on success the normalized posts are appended, and on any error the
`catch` logs and continues with the next subreddit, so no exception escapes
and the accumulated posts are kept. -/
def fetchHotPosts (fetch : String → Nat → Except FetchError (List RawPost))
    (subreddits : List String) (maxRetries : Nat) : List TrendAnalyzer.Post :=
  subreddits.foldl (fun allPosts subreddit =>
    match (retryWithBackoff (fetch subreddit) 0 maxRetries 2000).2 with
    | RetryResult.ok posts => allPosts ++ posts.map normalizePost
    | _ => allPosts) []

end RedditClient

namespace Examples

open TrendAnalyzer RedditClient

/-- A post with `score = 100` and `num_comments = 50`, created at time
`createdUtc`, as in the spec's trending-score examples. -/
def samplePost (createdUtc : ℚ) : Post :=
  { subreddit := "technology"
    title := ""
    text := ""
    author := "a"
    score := 100
    upvote_ratio := 1
    num_comments := 50
    created_utc := createdUtc
    url := ""
    permalink := ""
    id := "p1" }

/-- A post whose title contains one keyword twice, created at Unix time 0. -/
def emergingPost : Post :=
  { subreddit := "gaming"
    title := "hello hello"
    text := ""
    author := "a"
    score := 7
    upvote_ratio := 1
    num_comments := 0
    created_utc := 0
    url := ""
    permalink := ""
    id := "p2" }

/-- A post whose title contains two distinct keywords. -/
def twoKeywordPost : Post :=
  { subreddit := "movies"
    title := "hello world"
    text := ""
    author := "a"
    score := 3
    upvote_ratio := 1
    num_comments := 0
    created_utc := 0
    url := ""
    permalink := ""
    id := "p3" }

/-- A post whose title contains 31 distinct qualifying keywords (each of
length 4, none a stop word, none numeric), each occurring once; the last
one in insertion order is `afaf`. -/
def widePost : Post :=
  { subreddit := "books"
    title := "aaaa bbbb cccc dddd eeee ffff gggg hhhh iiii jjjj kkkk llll mmmm nnnn oooo pppp qqqq rrrr ssss tttt uuuu vvvv wwww xxxx yyyy zzzz abab acac adad aeae afaf"
    text := ""
    author := "a"
    score := 1
    upvote_ratio := 1
    num_comments := 0
    created_utc := 0
    url := ""
    permalink := ""
    id := "p4" }

/-- An upstream thunk that fails on every attempt with HTTP 429 carrying
`ratelimitRemaining = 1`. -/
def alwaysRateLimited : Nat → Except FetchError Nat :=
  fun _ => Except.error { statusCode := some 429, messageHasRateLimit := false,
                          ratelimitRemaining := some 1 }

/-- An upstream thunk that fails on every attempt with an error whose
message contains `rate limit` and which carries no numeric hint. -/
def alwaysRateLimitedMsg : Nat → Except FetchError (List RawPost) :=
  fun _ => Except.error { statusCode := none, messageHasRateLimit := true,
                          ratelimitRemaining := none }

/-- A raw submission for each of two healthy sources. -/
def rawA : RawPost :=
  { subreddit_display_name := "technology"
    title := "hello world"
    selftext := none
    author_name := "a"
    score := 5
    upvote_ratio := 1
    num_comments := 2
    created_utc := 0
    url := "u"
    permalink := "/r/technology/1"
    id := "t1" }

/-- A raw submission returned by the third source. -/
def rawC : RawPost :=
  { subreddit_display_name := "movies"
    title := "great film"
    selftext := some "loved every minute"
    author_name := "b"
    score := 9
    upvote_ratio := 1
    num_comments := 4
    created_utc := 100
    url := "u2"
    permalink := "/r/movies/2"
    id := "m1" }

/-- A batch of three sources where the second always throws an
unrecoverable (non-rate-limit, non-server) error and the other two succeed
on their first attempt. -/
def batchFetch : String → Nat → Except FetchError (List RawPost) :=
  fun subreddit _ =>
    if subreddit = "technology" then Except.ok [rawA]
    else if subreddit = "badsub" then
      Except.error { statusCode := some 404, messageHasRateLimit := false,
                     ratelimitRemaining := none }
    else Except.ok [rawC]

end Examples


/-! ## Helper lemmas about the frequency-map operations -/

namespace TrendAnalyzer

theorem mem_bump {m : List (String × Nat)} {w : String} {c : Nat} {p : String × Nat}
    (h : p ∈ bump m w c) : p.1 = w ∨ p ∈ m := by
  induction m with
  | nil =>
      simp only [bump, List.mem_singleton] at h
      subst h; exact Or.inl rfl
  | cons q rest ih =>
      obtain ⟨k, v⟩ := q
      by_cases hk : k = w
      · simp only [bump, if_pos hk, List.mem_cons] at h
        rcases h with h | h
        · subst h; exact Or.inl hk
        · exact Or.inr (List.mem_cons_of_mem _ h)
      · simp only [bump, if_neg hk, List.mem_cons] at h
        rcases h with h | h
        · subst h; exact Or.inr (List.mem_cons_self _ _)
        · rcases ih h with h' | h'
          · exact Or.inl h'
          · exact Or.inr (List.mem_cons_of_mem _ h')

theorem mem_bump_count_pos {m : List (String × Nat)} {w : String} {c : Nat}
    (hm : ∀ q ∈ m, 1 ≤ q.2) (hc : 1 ≤ c) : ∀ p ∈ bump m w c, 1 ≤ p.2 := by
  induction m with
  | nil =>
      intro p hp
      simp only [bump, List.mem_singleton] at hp
      subst hp; exact hc
  | cons q rest ih =>
      obtain ⟨k, v⟩ := q
      intro p hp
      by_cases hk : k = w
      · simp only [bump, if_pos hk, List.mem_cons] at hp
        rcases hp with hp | hp
        · subst hp
          exact Nat.le_trans hc (Nat.le_add_left c v)
        · exact hm p (List.mem_cons_of_mem _ hp)
      · simp only [bump, if_neg hk, List.mem_cons] at hp
        rcases hp with hp | hp
        · subst hp; exact hm (k, v) (List.mem_cons_self _ _)
        · exact ih (fun q hq => hm q (List.mem_cons_of_mem _ hq)) p hp

theorem mem_foldl_bump {ws : List String} :
    ∀ {init : List (String × Nat)} {p : String × Nat},
      p ∈ ws.foldl (fun frequency word => bump frequency word 1) init →
      p ∈ init ∨ p.1 ∈ ws := by
  induction ws with
  | nil => intro _ _ h; exact Or.inl h
  | cons w ws ih =>
      intro init p h
      simp only [List.foldl_cons] at h
      rcases ih h with h' | h'
      · rcases mem_bump h' with h'' | h''
        · exact Or.inr (h'' ▸ List.mem_cons_self _ _)
        · exact Or.inl h''
      · exact Or.inr (List.mem_cons_of_mem _ h')

theorem mem_foldl_bump_count_pos {ws : List String} :
    ∀ {init : List (String × Nat)}, (∀ q ∈ init, 1 ≤ q.2) →
      ∀ p ∈ ws.foldl (fun frequency word => bump frequency word 1) init, 1 ≤ p.2 := by
  induction ws with
  | nil => intro _ hinit p hp; exact hinit p hp
  | cons w ws ih =>
      intro init hinit p hp
      simp only [List.foldl_cons] at hp
      exact ih (mem_bump_count_pos hinit (Nat.le_refl 1)) p hp

theorem mem_keys_bump_of_mem {m : List (String × Nat)} {w k : String} {c : Nat}
    (h : k ∈ m.map Prod.fst) : k ∈ (bump m w c).map Prod.fst := by
  induction m with
  | nil => simp at h
  | cons q rest ih =>
      obtain ⟨k', v⟩ := q
      by_cases hk : k' = w
      · simpa [bump, if_pos hk] using h
      · simp only [List.map_cons, List.mem_cons] at h
        rcases h with h | h
        · simp [bump, if_neg hk, h]
        · simp [bump, if_neg hk, ih h]

theorem self_mem_keys_bump (m : List (String × Nat)) (w : String) (c : Nat) :
    w ∈ (bump m w c).map Prod.fst := by
  induction m with
  | nil => simp [bump]
  | cons q rest ih =>
      obtain ⟨k', v⟩ := q
      by_cases hk : k' = w
      · simp [bump, if_pos hk, hk]
      · simp [bump, if_neg hk, ih]

theorem mem_keys_foldl_bump_of_mem_acc {m : List (String × Nat)} :
    ∀ {acc : List (String × Nat)} {k : String}, k ∈ acc.map Prod.fst →
      k ∈ (m.foldl (fun a p => bump a p.1 p.2) acc).map Prod.fst := by
  induction m with
  | nil => intro _ _ h; exact h
  | cons p rest ih =>
      intro acc k h
      simp only [List.foldl_cons]
      exact ih (mem_keys_bump_of_mem h)

theorem mem_keys_foldl_bump_of_mem {m : List (String × Nat)}
    {acc : List (String × Nat)} {k : String} (h : k ∈ m.map Prod.fst) :
    k ∈ (m.foldl (fun a p => bump a p.1 p.2) acc).map Prod.fst := by
  induction m generalizing acc with
  | nil => simp at h
  | cons p rest ih =>
      simp only [List.map_cons, List.mem_cons] at h
      simp only [List.foldl_cons]
      rcases h with h | h
      · exact mem_keys_foldl_bump_of_mem_acc (h ▸ self_mem_keys_bump acc p.1 p.2)
      · exact ih h

theorem mem_keys_foldl_maps {maps : List (List (String × Nat))} :
    ∀ {acc : List (String × Nat)} {k : String}, k ∈ acc.map Prod.fst →
      k ∈ (maps.foldl (fun merged map => map.foldl (fun a p => bump a p.1 p.2) merged) acc).map
        Prod.fst := by
  induction maps with
  | nil => intro _ _ h; exact h
  | cons m rest ih =>
      intro acc k h
      simp only [List.foldl_cons]
      exact ih (mem_keys_foldl_bump_of_mem_acc h)

theorem mem_keys_mergeFrequencies {maps : List (List (String × Nat))}
    {m : List (String × Nat)} {k : String} (hm : m ∈ maps) (hk : k ∈ m.map Prod.fst) :
    k ∈ (mergeFrequencies maps).map Prod.fst := by
  unfold mergeFrequencies
  suffices h : ∀ (acc : List (String × Nat)),
      k ∈ (maps.foldl (fun merged map => map.foldl (fun a p => bump a p.1 p.2) merged) acc).map
        Prod.fst by
    exact h []
  induction maps with
  | nil => simp at hm
  | cons m' rest ih =>
      intro acc
      simp only [List.mem_cons] at hm
      simp only [List.foldl_cons]
      rcases hm with hm | hm
      · subst hm
        exact mem_keys_foldl_maps (mem_keys_foldl_bump_of_mem hk)
      · exact ih hm _

theorem mem_keys_setKey_of_mem {m : List (String × Nat)} {w k : String} {c : Nat}
    (h : k ∈ m.map Prod.fst) : k ∈ (setKey m w c).map Prod.fst := by
  induction m with
  | nil => simp at h
  | cons q rest ih =>
      obtain ⟨k', v⟩ := q
      by_cases hk : k' = w
      · simpa [setKey, if_pos hk] using h
      · simp only [List.map_cons, List.mem_cons] at h
        rcases h with h | h
        · simp [setKey, if_neg hk, h]
        · simp [setKey, if_neg hk, ih h]

theorem self_mem_keys_setKey (m : List (String × Nat)) (w : String) (c : Nat) :
    w ∈ (setKey m w c).map Prod.fst := by
  induction m with
  | nil => simp [setKey]
  | cons q rest ih =>
      obtain ⟨k', v⟩ := q
      by_cases hk : k' = w
      · simp [setKey, if_pos hk, hk]
      · simp [setKey, if_neg hk, ih]

theorem length_setKey_le (m : List (String × Nat)) (w : String) (c : Nat) :
    (setKey m w c).length ≤ m.length + 1 := by
  induction m with
  | nil => simp [setKey]
  | cons q rest ih =>
      obtain ⟨k', v⟩ := q
      by_cases hk : k' = w
      · simp [setKey, if_pos hk]
      · simp only [setKey, if_neg hk, List.length_cons]
        exact Nat.succ_le_succ ih

theorem mem_keys_foldl_setKey_of_mem_acc {l : List (String × Nat)} :
    ∀ {acc : List (String × Nat)} {k : String}, k ∈ acc.map Prod.fst →
      k ∈ (l.foldl (fun acc p => setKey acc p.1 p.2) acc).map Prod.fst := by
  induction l with
  | nil => intro _ _ h; exact h
  | cons p rest ih =>
      intro acc k h
      simp only [List.foldl_cons]
      exact ih (mem_keys_setKey_of_mem h)

theorem mem_keys_foldl_setKey_of_mem {l : List (String × Nat)}
    {acc : List (String × Nat)} {k : String} (h : k ∈ l.map Prod.fst) :
    k ∈ (l.foldl (fun acc p => setKey acc p.1 p.2) acc).map Prod.fst := by
  induction l generalizing acc with
  | nil => simp at h
  | cons p rest ih =>
      simp only [List.map_cons, List.mem_cons] at h
      simp only [List.foldl_cons]
      rcases h with h | h
      · exact mem_keys_foldl_setKey_of_mem_acc (h ▸ self_mem_keys_setKey acc p.1 p.2)
      · exact ih h

theorem length_foldl_setKey_le {l : List (String × Nat)} :
    ∀ {acc : List (String × Nat)},
      (l.foldl (fun acc p => setKey acc p.1 p.2) acc).length ≤ acc.length + l.length := by
  induction l with
  | nil => intro acc; simp
  | cons p rest ih =>
      intro acc
      simp only [List.foldl_cons, List.length_cons]
      calc (rest.foldl (fun acc p => setKey acc p.1 p.2) (setKey acc p.1 p.2)).length
          ≤ (setKey acc p.1 p.2).length + rest.length := ih
        _ ≤ (acc.length + 1) + rest.length :=
            Nat.add_le_add_right (length_setKey_le acc p.1 p.2) _
        _ = acc.length + (rest.length + 1) := by omega

theorem mem_keys_filterByMinFrequency_zero {merged : List (String × Nat)} {k : String}
    (h : k ∈ merged.map Prod.fst) :
    k ∈ (filterByMinFrequency merged 0).map Prod.fst := by
  unfold filterByMinFrequency
  have hfilter : merged.filter (fun p => 0 ≤ p.2) = merged :=
    List.filter_eq_self.mpr (fun p _ => by simp)
  rw [hfilter]
  exact mem_keys_foldl_setKey_of_mem h

theorem length_filterByMinFrequency_le (merged : List (String × Nat)) (minFrequency : Nat) :
    (filterByMinFrequency merged minFrequency).length ≤ merged.length := by
  unfold filterByMinFrequency
  calc ((merged.filter (fun p => minFrequency ≤ p.2)).foldl
          (fun acc p => setKey acc p.1 p.2) []).length
      ≤ ([] : List (String × Nat)).length + (merged.filter (fun p => minFrequency ≤ p.2)).length :=
        length_foldl_setKey_le
    _ ≤ merged.length := by
        simpa using List.length_filter_le _ merged

theorem mem_insertByCountDesc {p q : String × Nat} {l : List (String × Nat)} :
    q ∈ insertByCountDesc p l ↔ q = p ∨ q ∈ l := by
  induction l with
  | nil => simp [insertByCountDesc]
  | cons r rest ih =>
      by_cases hr : r.2 ≤ p.2
      · simp [insertByCountDesc, if_pos hr, List.mem_cons]
      · simp only [insertByCountDesc, if_neg hr, List.mem_cons, ih]
        tauto

theorem length_insertByCountDesc (p : String × Nat) (l : List (String × Nat)) :
    (insertByCountDesc p l).length = l.length + 1 := by
  induction l with
  | nil => simp [insertByCountDesc]
  | cons r rest ih =>
      by_cases hr : r.2 ≤ p.2
      · simp [insertByCountDesc, if_pos hr]
      · simp only [insertByCountDesc, if_neg hr, List.length_cons, ih]

theorem mem_sortByCountDesc {q : String × Nat} {l : List (String × Nat)} :
    q ∈ sortByCountDesc l ↔ q ∈ l := by
  induction l with
  | nil => simp [sortByCountDesc]
  | cons p rest ih =>
      simp only [sortByCountDesc, mem_insertByCountDesc, List.mem_cons, ih]

theorem length_sortByCountDesc (l : List (String × Nat)) :
    (sortByCountDesc l).length = l.length := by
  induction l with
  | nil => rfl
  | cons p rest ih =>
      simp only [sortByCountDesc, length_insertByCountDesc, List.length_cons, ih]

theorem mem_keys_getTopKeywords {freq : List (String × Nat)} {k : String} {limit : Nat}
    (hlen : freq.length ≤ limit) (hk : k ∈ freq.map Prod.fst) :
    k ∈ (getTopKeywords freq limit).map TrendEntry.keyword := by
  unfold getTopKeywords
  have htake : (sortByCountDesc freq).take limit = sortByCountDesc freq :=
    List.take_of_length_le (by rw [length_sortByCountDesc]; exact hlen)
  rw [htake]
  simp only [List.map_map, List.mem_map] at hk ⊢
  obtain ⟨p, hp, hpk⟩ := hk
  exact ⟨p, mem_sortByCountDesc.mpr hp, hpk⟩

theorem toLower_isUpper_false (c : Char) : (Char.toLower c).isUpper = false := by
  unfold Char.toLower
  by_cases h : c.toNat ≥ 65 ∧ c.toNat ≤ 90
  · rw [if_pos h]
    have hvalid : (c.toNat + 32).isValidChar := by
      left
      omega
    unfold Char.ofNat
    rw [dif_pos hvalid]
    unfold Char.ofNatAux Char.isUpper
    simp only [Bool.and_eq_false_iff, decide_eq_false_iff_not, UInt32.le_def,
      BitVec.le_def]
    right
    intro hle
    simp at hle
    omega
  · rw [if_neg h]
    unfold Char.isUpper
    simp only [Bool.and_eq_false_iff, decide_eq_false_iff_not, UInt32.le_def,
      BitVec.le_def]
    have hc : c.val.toBitVec.toNat = c.toNat := rfl
    have h65 : ((65 : UInt32)).toBitVec.toNat = 65 := rfl
    have h90 : ((90 : UInt32)).toBitVec.toNat = 90 := rfl
    rw [hc, h65, h90]
    omega

theorem chars_of_splitWsAux (P : Char → Prop) :
    ∀ (cs cur : List Char), (∀ c ∈ cur, P c) →
      (∀ c ∈ cs, c.isWhitespace = false → P c) →
      ∀ w ∈ splitWsAux cur cs, ∀ c ∈ w.data, P c := by
  intro cs
  induction cs with
  | nil =>
      intro cur hcur _ w hw c hc
      simp only [splitWsAux, List.mem_singleton] at hw
      subst hw
      exact hcur c (by simpa using hc)
  | cons d cs ih =>
      intro cur hcur hcs w hw c hc
      by_cases hd : d.isWhitespace
      · simp only [splitWsAux, if_pos hd, List.mem_cons] at hw
        rcases hw with hw | hw
        · subst hw
          exact hcur c (by simpa using hc)
        · exact ih [] (by simp) (fun c' hc' => hcs c' (List.mem_cons_of_mem _ hc')) w hw c hc
      · simp only [splitWsAux, if_neg hd] at hw
        refine ih (d :: cur) ?_ (fun c' hc' => hcs c' (List.mem_cons_of_mem _ hc')) w hw c hc
        intro c' hc'
        rcases List.mem_cons.mp hc' with h | h
        · subst h
          exact hcs c' (List.mem_cons_self _ _) (by simpa using hd)
        · exact hcur c' h

theorem keywordTokens_chars {text : String} {w : String} (hw : w ∈ keywordTokens text) :
    ∀ c ∈ w.data, isWordChar c = true ∧ ∃ c₀, c = Char.toLower c₀ := by
  unfold keywordTokens at hw
  have hw' := (List.mem_filter.mp hw).1
  unfold splitWs at hw'
  have hchars := chars_of_splitWsAux
    (fun c => c.isWhitespace = false ∧ c ∈ (text.data.map Char.toLower).map replaceNonWord)
    ((text.data.map Char.toLower).map replaceNonWord) [] (by simp)
    (fun c hc hws => ⟨hws, hc⟩) w hw'
  intro c hc
  obtain ⟨hws, hmem⟩ := hchars c hc
  simp only [List.map_map, List.mem_map, Function.comp] at hmem
  obtain ⟨c₀, _, hc₀⟩ := hmem
  unfold replaceNonWord at hc₀
  by_cases hword : (isWordChar (Char.toLower c₀) || (Char.toLower c₀).isWhitespace) = true
  · rw [if_pos hword] at hc₀
    subst hc₀
    rcases Bool.or_eq_true_iff.mp hword with h | h
    · exact ⟨h, c₀, rfl⟩
    · rw [h] at hws
      exact absurd hws (by simp)
  · rw [if_neg hword] at hc₀
    subst hc₀
    exact absurd hws (by simp [Char.isWhitespace])

theorem keywordTokens_filter_props {text : String} {w : String}
    (hw : w ∈ keywordTokens text) :
    3 < w.length ∧ w ∉ stopWords ∧ isPureNumber w = false := by
  unfold keywordTokens at hw
  have hpred := (List.mem_filter.mp hw).2
  simp only [Bool.and_eq_true, decide_eq_true_eq, Bool.not_eq_true'] at hpred
  refine ⟨hpred.1.1, ?_, hpred.2⟩
  intro hmem
  have hcontains : stopWords.contains w = true :=
    List.contains_iff_exists_mem_beq.mpr ⟨w, hmem, by simp⟩
  rw [hpred.1.2] at hcontains
  exact Bool.false_ne_true hcontains

/-! ## Claim theorems for the trend-scoring engine -/

/-- C1 (counterexample): `extractKeywords "The Game is SO GOOD!!"` does not
return the frequency map `{game: 1, good: 1}` claimed by the spec: the key
`good` is absent from the result, because `good` is a member of the
stop-word set and is filtered out. -/
theorem extractKeywords_game_good_counterexample :
    "good" ∉ (extractKeywords "The Game is SO GOOD!!").map Prod.fst ∧
    "good" ∈ stopWords := by
  decide

/-- C1 (amended): for the input string `"The Game is SO GOOD!!"`,
`extractKeywords` returns exactly the frequency map `{game: 1}` — the stop
words `the`, `is`, `so` and short tokens are excluded by the length and
stop-word filters, and `good`, although of length 4, is itself in the
stop-word set and is excluded too. -/
theorem extractKeywords_game_good_amended :
    extractKeywords "The Game is SO GOOD!!" = [("game", 1)] := by
  decide

/-- C5: for every input text, every key of the frequency map returned by
`extractKeywords` has length strictly greater than 3, contains no uppercase
letter (it is entirely lowercase), consists only of word characters —
alphanumerics or underscore — hence contains no punctuation, is not a
member of the stop-word set, and is not purely numeric. -/
theorem extractKeywords_keys_wellformed (text : String) (p : String × Nat)
    (hp : p ∈ extractKeywords text) :
    3 < p.1.length ∧
    p.1.data.all (fun c => !c.isUpper) = true ∧
    p.1.data.all (fun c => c.isAlphanum || c = '_') = true ∧
    p.1 ∉ stopWords ∧
    isPureNumber p.1 = false := by
  have hkey : p.1 ∈ keywordTokens text := by
    rcases mem_foldl_bump hp with h | h
    · simp at h
    · exact h
  obtain ⟨hlen, hstop, hnum⟩ := keywordTokens_filter_props hkey
  have hchars := keywordTokens_chars hkey
  refine ⟨hlen, ?_, ?_, hstop, hnum⟩
  · rw [List.all_eq_true]
    intro c hc
    obtain ⟨_, c₀, hc₀⟩ := hchars c hc
    simp [hc₀, toLower_isUpper_false]
  · rw [List.all_eq_true]
    intro c hc
    obtain ⟨hword, _⟩ := hchars c hc
    simpa [isWordChar] using hword

/-- Witness for C5, at the concrete input `"Hello WORLD"` whose extracted
key `hello` satisfies all five conditions. -/
theorem extractKeywords_keys_wellformed_witness :
    3 < ("hello" : String).length ∧
    ("hello" : String).data.all (fun c => !c.isUpper) = true ∧
    ("hello" : String).data.all (fun c => c.isAlphanum || c = '_') = true ∧
    ("hello" : String) ∉ stopWords ∧
    isPureNumber "hello" = false :=
  extractKeywords_keys_wellformed "Hello WORLD" ("hello", 1) (by decide)

/-- C9: every count in the frequency map returned by `extractKeywords` is a
strictly positive integer (at least 1, never 0); a text whose filtered word
list is empty — in particular the empty string — yields the empty map. -/
theorem extractKeywords_counts_positive :
    (∀ (text : String), ∀ p ∈ extractKeywords text, 1 ≤ p.2) ∧
    (∀ (text : String), keywordTokens text = [] → extractKeywords text = []) ∧
    extractKeywords "" = [] := by
  refine ⟨?_, ?_, by decide⟩
  · intro text p hp
    exact mem_foldl_bump_count_pos (by simp) p hp
  · intro text h
    simp [extractKeywords, h]

/-- Witness for C9, at the concrete inputs `"abcd"` (count 1 for the key
`abcd`) and `""` (empty map). -/
theorem extractKeywords_counts_positive_witness :
    1 ≤ (("abcd", 1) : String × Nat).2 ∧ extractKeywords "" = [] :=
  ⟨extractKeywords_counts_positive.1 "abcd" ("abcd", 1) (by decide),
   extractKeywords_counts_positive.2.2⟩

/-- C4 (counterexample): for a single post whose title contains 31 distinct
qualifying keywords, the keyword `afaf` occurs (once) in the post's title,
yet it does not appear in `analyzeTrendingKeywords([post], 0)`: although
the threshold-0 filter drops nothing, the ranking is capped at 30 entries
(`getTopKeywords(filtered, 30)`), and the 31st keyword is cut off. -/
theorem analyzeTrendingKeywords_zero_counterexample :
    "afaf" ∈ (extractKeywords Examples.widePost.title).map Prod.fst ∧
    "afaf" ∉ (analyzeTrendingKeywords [Examples.widePost] 0).map TrendEntry.keyword := by
  decide

/-- C4 (amended): for every list of posts whose merged frequency map has at
most 30 distinct keywords, every keyword that occurs at least once in some
post's title or body text appears in `analyzeTrendingKeywords(posts, 0)`
(the threshold-0 filter drops nothing; only the fixed 30-entry output cap
can drop keywords, and under this bound it does not). -/
theorem analyzeTrendingKeywords_zero_complete (posts : List Post) (k : String)
    (hlen : (mergeFrequencies (posts.map postFrequencies)).length ≤ 30)
    (hocc : ∃ post ∈ posts, k ∈ (postFrequencies post).map Prod.fst) :
    k ∈ (analyzeTrendingKeywords posts 0).map TrendEntry.keyword := by
  obtain ⟨post, hpost, hk⟩ := hocc
  have hmerged : k ∈ (mergeFrequencies (posts.map postFrequencies)).map Prod.fst :=
    mem_keys_mergeFrequencies (List.mem_map_of_mem _ hpost) hk
  have hfiltered :
      k ∈ (filterByMinFrequency (mergeFrequencies (posts.map postFrequencies)) 0).map
        Prod.fst :=
    mem_keys_filterByMinFrequency_zero hmerged
  have hflen :
      (filterByMinFrequency (mergeFrequencies (posts.map postFrequencies)) 0).length ≤ 30 :=
    le_trans (length_filterByMinFrequency_le _ _) hlen
  unfold analyzeTrendingKeywords
  exact mem_keys_getTopKeywords hflen hfiltered

/-- Witness for the amended C4, at a concrete one-post list with two
distinct keywords. -/
theorem analyzeTrendingKeywords_zero_complete_witness :
    "hello" ∈ (analyzeTrendingKeywords [Examples.twoKeywordPost] 0).map TrendEntry.keyword :=
  analyzeTrendingKeywords_zero_complete [Examples.twoKeywordPost] "hello" (by decide)
    ⟨Examples.twoKeywordPost, List.mem_singleton.mpr rfl, by decide⟩

theorem buckets_nonempty_pushToGroup {acc : List (String × List Post)} {key : String}
    {post : Post} (h : ∀ b ∈ acc, b.2 ≠ []) :
    ∀ b ∈ pushToGroup acc key post, b.2 ≠ [] := by
  induction acc with
  | nil =>
      intro b hb
      simp only [pushToGroup, List.mem_singleton] at hb
      subst hb
      simp
  | cons q rest ih =>
      obtain ⟨k, ps⟩ := q
      intro b hb
      by_cases hk : k = key
      · simp only [pushToGroup, if_pos hk, List.mem_cons] at hb
        rcases hb with hb | hb
        · subst hb; simp
        · exact h b (List.mem_cons_of_mem _ hb)
      · simp only [pushToGroup, if_neg hk, List.mem_cons] at hb
        rcases hb with hb | hb
        · subst hb; exact h (k, ps) (List.mem_cons_self _ _)
        · exact ih (fun b' hb' => h b' (List.mem_cons_of_mem _ hb')) b hb

theorem buckets_nonempty_foldl {posts : List Post} :
    ∀ {acc : List (String × List Post)}, (∀ b ∈ acc, b.2 ≠ []) →
      ∀ b ∈ posts.foldl (fun acc post => pushToGroup acc post.subreddit post) acc,
        b.2 ≠ [] := by
  induction posts with
  | nil => intro _ h b hb; exact h b hb
  | cons p rest ih =>
      intro acc h b hb
      simp only [List.foldl_cons] at hb
      exact ih (buckets_nonempty_pushToGroup h) b hb

/-- C10: every per-subreddit summary returned by `getTrendsBySubreddit` is
built from a nonempty group of posts, so its `postCount` is at least 1 and
the divisor of the `avgScore` division (`subPosts.length`, stored as
`postCount`) is nonzero. -/
theorem getTrendsBySubreddit_postCount_pos (posts : List Post)
    (entry : String × SubredditTrend) (h : entry ∈ getTrendsBySubreddit posts) :
    1 ≤ entry.2.postCount ∧ ((entry.2.postCount : ℚ) ≠ 0) := by
  unfold getTrendsBySubreddit at h
  simp only [List.mem_map] at h
  obtain ⟨g, hg, hentry⟩ := h
  have hne : g.2 ≠ [] := buckets_nonempty_foldl (by simp) g hg
  have hpos : 0 < g.2.length := List.length_pos.mpr hne
  subst hentry
  constructor
  · exact hpos
  · simpa using Nat.pos_iff_ne_zero.mp hpos

/-- Witness for C10, at a concrete one-post list: the single summary has
`postCount = 1` and a nonzero divisor. -/
theorem getTrendsBySubreddit_postCount_pos_witness :
    1 ≤ (("gaming",
        ({ postCount := 1, topKeywords := [⟨"hello", 2⟩], avgScore := 7 } : SubredditTrend)) :
        String × SubredditTrend).2.postCount ∧
    (((("gaming",
        ({ postCount := 1, topKeywords := [⟨"hello", 2⟩], avgScore := 7 } : SubredditTrend)) :
        String × SubredditTrend).2.postCount : ℚ) ≠ 0) :=
  getTrendsBySubreddit_postCount_pos [Examples.emergingPost]
    ("gaming", { postCount := 1, topKeywords := [⟨"hello", 2⟩], avgScore := 7 })
    (by
      simp only [getTrendsBySubreddit, List.foldl_cons, List.foldl_nil, pushToGroup,
        List.map_cons, List.map_nil, List.mem_singleton, Examples.emergingPost]
      norm_num
      decide)

theorem four_rpow_three_halves : (4 : ℝ) ^ ((3 : ℝ) / 2) = 8 := by
  rw [show (4 : ℝ) = (2 : ℝ) ^ (2 : ℝ) by
        rw [show (2 : ℝ) = ((2 : ℕ) : ℝ) by norm_num, Real.rpow_natCast]
        norm_num]
  rw [← Real.rpow_mul (by norm_num : (0 : ℝ) ≤ 2)]
  norm_num

theorem samplePost_score_now (t : ℚ) :
    calculateTrendingScore t (Examples.samplePost t) = 200 := by
  unfold calculateTrendingScore Examples.samplePost
  norm_num [Real.one_rpow]

theorem samplePost_score_4h (t : ℚ) :
    calculateTrendingScore t (Examples.samplePost (t - 14400)) = 25 := by
  unfold calculateTrendingScore Examples.samplePost
  push_cast
  norm_num
  rw [four_rpow_three_halves]
  norm_num

/-- C6: for every post, `calculateTrendingScore` equals
`(post.score + 2·post.num_comments) / max(1, (now − post.created_utc)/3600)^1.5`
(with `now = Date.now()/1000` passed explicitly and `1.5 = 3/2` as a real
exponent); in particular, a post with `score = 100` and `num_comments = 50`
created at the current instant scores 200, and the same post created 4
hours (14400 s) earlier scores 25. -/
theorem calculateTrendingScore_spec :
    (∀ (now : ℚ) (post : Post),
        calculateTrendingScore now post =
          ((post.score : ℝ) + 2 * (post.num_comments : ℝ)) /
            (max 1 (((now : ℝ) - (post.created_utc : ℝ)) / 3600)) ^ ((3 : ℝ) / 2)) ∧
    (∀ t : ℚ, calculateTrendingScore t (Examples.samplePost t) = 200) ∧
    (∀ t : ℚ, calculateTrendingScore t (Examples.samplePost (t - 14400)) = 25) := by
  refine ⟨?_, samplePost_score_now, samplePost_score_4h⟩
  intro now post
  unfold calculateTrendingScore
  ring_nf

/-- Witness for C6, instantiating the fresh-post example at `now = 0`. -/
theorem calculateTrendingScore_spec_witness :
    calculateTrendingScore 0 (Examples.samplePost 0) = 200 :=
  calculateTrendingScore_spec.2.1 0

/-- C3 (counterexample): `calculateTrendingScore` is not a pure function of
its explicit input (the post): two calls with the same post, made at
different clock instants (`Date.now()/1000 = 0` and `= 14400`), return 200
and 25 respectively. -/
theorem trendScoringEngine_purity_counterexample :
    calculateTrendingScore 0 (Examples.samplePost 0) ≠
      calculateTrendingScore 14400 (Examples.samplePost 0) := by
  have h1 := samplePost_score_now 0
  have h2 := samplePost_score_4h 14400
  norm_num at h2
  rw [h1, h2]
  norm_num

/-- C3 (amended): `extractKeywords`, `mergeFrequencies`, `getTopKeywords`
(the spec's `rankKeywords`), `analyzeTrendingKeywords`,
`analyzeCommentTrends` and `getTrendsBySubreddit` are pure functions of
their explicit inputs — two calls with equal inputs return equal outputs —
while `calculateTrendingScore`, `getTopTrendingPosts` and
`getEmergingTopics` additionally read the ambient clock (`Date.now()`,
modelled as the explicit `nowSec` parameter), so calls with equal explicit
inputs made at different times can return different outputs. -/
theorem trendScoringEngine_purity_amended :
    (∀ t₁ t₂ : String, t₁ = t₂ → extractKeywords t₁ = extractKeywords t₂) ∧
    (∀ m₁ m₂ : List (List (String × Nat)), m₁ = m₂ →
        mergeFrequencies m₁ = mergeFrequencies m₂) ∧
    (∀ (f₁ f₂ : List (String × Nat)) (l₁ l₂ : Nat), f₁ = f₂ → l₁ = l₂ →
        getTopKeywords f₁ l₁ = getTopKeywords f₂ l₂) ∧
    (∀ (p₁ p₂ : List Post) (m₁ m₂ : Nat), p₁ = p₂ → m₁ = m₂ →
        analyzeTrendingKeywords p₁ m₁ = analyzeTrendingKeywords p₂ m₂) ∧
    (∀ (c₁ c₂ : List Comment) (m₁ m₂ : Nat), c₁ = c₂ → m₁ = m₂ →
        analyzeCommentTrends c₁ m₁ = analyzeCommentTrends c₂ m₂) ∧
    (∀ p₁ p₂ : List Post, p₁ = p₂ → getTrendsBySubreddit p₁ = getTrendsBySubreddit p₂) ∧
    (∃ (t₁ t₂ : ℚ) (post : Post),
        calculateTrendingScore t₁ post ≠ calculateTrendingScore t₂ post) ∧
    (∃ (t₁ t₂ : ℚ) (posts : List Post) (limit : Nat),
        getTopTrendingPosts t₁ posts limit ≠ getTopTrendingPosts t₂ posts limit) ∧
    (∃ (t₁ t₂ : ℚ) (posts : List Post) (hours : ℚ),
        getEmergingTopics t₁ posts hours ≠ getEmergingTopics t₂ posts hours) := by
  refine ⟨fun _ _ h => h ▸ rfl, fun _ _ h => h ▸ rfl,
    fun _ _ _ _ h h' => h ▸ h' ▸ rfl, fun _ _ _ _ h h' => h ▸ h' ▸ rfl,
    fun _ _ _ _ h h' => h ▸ h' ▸ rfl, fun _ _ h => h ▸ rfl, ?_, ?_, ?_⟩
  · refine ⟨0, 14400, Examples.samplePost 0, ?_⟩
    have h1 := samplePost_score_now 0
    have h2 := samplePost_score_4h 14400
    norm_num at h2
    rw [h1, h2]
    norm_num
  · refine ⟨0, 14400, [Examples.samplePost 0], 10, ?_⟩
    have h1 := samplePost_score_now 0
    have h2 := samplePost_score_4h 14400
    norm_num at h2
    simp only [getTopTrendingPosts, List.map_cons, List.map_nil, sortByScoreDesc,
      insertByScoreDesc, h1, h2, List.take_succ_cons, List.take_nil]
    intro h
    simp only [List.cons.injEq, ScoredPost.mk.injEq] at h
    have := h.1.2
    norm_num at this
  · refine ⟨0, 1000000, [Examples.emergingPost], 24, ?_⟩
    simp only [getEmergingTopics, Examples.emergingPost]
    norm_num
    decide

/-- Witness for the amended C3, applying the `extractKeywords` purity part
at a concrete repeated input. -/
theorem trendScoringEngine_purity_amended_witness :
    extractKeywords "Hello WORLD" = extractKeywords "Hello WORLD" :=
  trendScoringEngine_purity_amended.1 "Hello WORLD" "Hello WORLD" rfl

end TrendAnalyzer

/-! ## Claim theorems for the acquisition layer -/

namespace RedditClient

/-- C2 (counterexample): with an upstream thunk that fails on every attempt
with HTTP 429 and `ratelimitRemaining = 1`, starting from the default
budget of 3 retries and the default 2000 ms backoff, the retry layer waits
2000 ms before every retry — the waits are NOT
`max(signal·1000 + 1000, currentBackoffDelay)`, which would give
2000, 4000, 8000 ms as the backoff doubles: the code uses the signal-based
wait unconditionally whenever the hint is truthy, without taking the
maximum with the current backoff delay. -/
theorem retryWithBackoff_wait_counterexample :
    (retryWithBackoff Examples.alwaysRateLimited 0 3 2000).1 = [2000, 2000, 2000] ∧
    (retryWithBackoff Examples.alwaysRateLimited 0 3 2000).1 ≠
      [max ((1 : ℚ) * 1000 + 1000) 2000, max ((1 : ℚ) * 1000 + 1000) (2000 * 2),
       max ((1 : ℚ) * 1000 + 1000) (2000 * 2 * 2)] := by
  have hw : (retryWithBackoff Examples.alwaysRateLimited 0 3 2000).1 = [2000, 2000, 2000] := by
    simp [retryWithBackoff, Examples.alwaysRateLimited, isRateLimitError]
    norm_num
  refine ⟨hw, ?_⟩
  rw [hw]
  intro h
  simp only [List.cons.injEq] at h
  have h2 := h.2.1
  rw [max_eq_right (by norm_num : ((1 : ℚ) * 1000 + 1000) ≤ 2000 * 2)] at h2
  norm_num at h2

/-- C2 (amended): on a rate-limit failure with retries remaining, if the
error carries a truthy (nonzero) `ratelimitRemaining` hint `r` the retry
layer waits exactly `r·1000 + 1000` ms — with no lower bound from the
current backoff delay — while if the hint is absent or zero (falsy in JS)
it waits exactly the current backoff delay; in either case the backoff
delay used for the next attempt is double the current one. -/
theorem retryWithBackoff_rateLimit_wait :
    (∀ (α : Type) (fn : Nat → Except FetchError α) (attempt r n : Nat) (delay : ℚ)
        (e : FetchError), fn attempt = Except.error e → isRateLimitError e = true →
        e.ratelimitRemaining = some r → r ≠ 0 →
        retryWithBackoff fn attempt (n + 1) delay =
          (((r : ℚ) * 1000 + 1000) :: (retryWithBackoff fn (attempt + 1) n (delay * 2)).1,
            (retryWithBackoff fn (attempt + 1) n (delay * 2)).2)) ∧
    (∀ (α : Type) (fn : Nat → Except FetchError α) (attempt n : Nat) (delay : ℚ)
        (e : FetchError), fn attempt = Except.error e → isRateLimitError e = true →
        (e.ratelimitRemaining = none ∨ e.ratelimitRemaining = some 0) →
        retryWithBackoff fn attempt (n + 1) delay =
          (delay :: (retryWithBackoff fn (attempt + 1) n (delay * 2)).1,
            (retryWithBackoff fn (attempt + 1) n (delay * 2)).2)) := by
  constructor
  · intro α fn attempt r n delay e hfn hrl hrem hr
    rw [retryWithBackoff, hfn]
    simp [hrl, hrem, hr]
  · intro α fn attempt n delay e hfn hrl hrem
    rw [retryWithBackoff, hfn]
    rcases hrem with hrem | hrem
    · simp [hrl, hrem]
    · simp [hrl, hrem]

/-- Witness for the amended C2: with budget 3 and backoff 2000 ms, one
rate-limited attempt with hint 1 waits `1·1000 + 1000` ms, one with no
hint at all waits the current 2000 ms backoff, and both recurse with
backoff `2000·2`. -/
theorem retryWithBackoff_rateLimit_wait_witness :
    (retryWithBackoff Examples.alwaysRateLimited 0 3 2000 =
      (((1 : ℚ) * 1000 + 1000) ::
          (retryWithBackoff Examples.alwaysRateLimited 1 2 (2000 * 2)).1,
        (retryWithBackoff Examples.alwaysRateLimited 1 2 (2000 * 2)).2)) ∧
    (retryWithBackoff Examples.alwaysRateLimitedMsg 0 3 2000 =
      ((2000 : ℚ) ::
          (retryWithBackoff Examples.alwaysRateLimitedMsg 1 2 (2000 * 2)).1,
        (retryWithBackoff Examples.alwaysRateLimitedMsg 1 2 (2000 * 2)).2)) :=
  ⟨retryWithBackoff_rateLimit_wait.1 Nat Examples.alwaysRateLimited 0 1 2 2000
    { statusCode := some 429, messageHasRateLimit := false, ratelimitRemaining := some 1 }
    rfl rfl rfl (by decide),
   retryWithBackoff_rateLimit_wait.2 (List RawPost) Examples.alwaysRateLimitedMsg 0 2 2000
    { statusCode := none, messageHasRateLimit := true, ratelimitRemaining := none }
    rfl rfl (Or.inl rfl)⟩

/-- C8: when every attempt of an upstream call fails with a rate-limit
signal, exhausting the retry budget makes `retryWithBackoff` produce the
distinguishable `rateLimitExceeded` outcome (the dedicated
`Error('Rate limit exceeded. Max retries reached. ...')`), which is thrown
to the caller orchestrating the batch — it is not swallowed into a
success or into the generic failure of the original error. -/
theorem retryWithBackoff_exhaustion_surfaces {α : Type}
    (fn : Nat → Except FetchError α) (retries : Nat) :
    ∀ (attempt : Nat) (delay : ℚ),
      (∀ i, ∃ e, fn i = Except.error e ∧ isRateLimitError e = true) →
      (retryWithBackoff fn attempt retries delay).2 = RetryResult.rateLimitExceeded := by
  induction retries with
  | zero =>
      intro attempt delay h
      obtain ⟨e, he, hrl⟩ := h attempt
      rw [retryWithBackoff, he]
      simp [hrl]
  | succ n ih =>
      intro attempt delay h
      obtain ⟨e, he, hrl⟩ := h attempt
      rw [retryWithBackoff, he]
      simp only [hrl, if_true]
      exact ih (attempt + 1) (delay * 2) h

/-- Witness for C8: a thunk failing on every attempt with a message-flagged
rate-limit error, at the default budget of 3 retries, surfaces
`rateLimitExceeded`. -/
theorem retryWithBackoff_exhaustion_surfaces_witness :
    (retryWithBackoff Examples.alwaysRateLimitedMsg 0 3 2000).2 =
      RetryResult.rateLimitExceeded :=
  retryWithBackoff_exhaustion_surfaces Examples.alwaysRateLimitedMsg 3 0 2000
    (fun _ => ⟨_, rfl, rfl⟩)

/-- C7: a failure while fetching one source does not abort the batch and no
exception escapes: with three sources where the second fails with an
unrecoverable (neither rate-limit nor server-class) error on its first
attempt and the other two succeed on their first attempt, `fetchHotPosts`
returns exactly the normalized posts of sources 1 and 3, in source-list
order. -/
theorem fetchHotPosts_batch_isolation
    (fetch : String → Nat → Except FetchError (List RawPost))
    (s₁ s₂ s₃ : String) (l₁ l₃ : List RawPost) (e : FetchError) (retries : Nat)
    (h₁ : fetch s₁ 0 = Except.ok l₁)
    (h₂ : fetch s₂ 0 = Except.error e)
    (hrl : isRateLimitError e = false)
    (hsrv : isServerError e = false)
    (h₃ : fetch s₃ 0 = Except.ok l₃) :
    fetchHotPosts fetch [s₁, s₂, s₃] retries =
      l₁.map normalizePost ++ l₃.map normalizePost := by
  have hs1 : (retryWithBackoff (fetch s₁) 0 retries 2000).2 = RetryResult.ok l₁ := by
    rw [retryWithBackoff, h₁]
  have hs3 : (retryWithBackoff (fetch s₃) 0 retries 2000).2 = RetryResult.ok l₃ := by
    rw [retryWithBackoff, h₃]
  have hs2 : (retryWithBackoff (fetch s₂) 0 retries 2000).2 = RetryResult.failed e := by
    cases retries with
    | zero =>
        rw [retryWithBackoff, h₂]
        simp [hrl]
    | succ n =>
        rw [retryWithBackoff, h₂]
        simp [hrl, hsrv]
  unfold fetchHotPosts
  simp only [List.foldl_cons, List.foldl_nil, hs1, hs2, hs3]
  simp

/-- Witness for C7: the concrete three-source batch where the middle source
throws HTTP 404. -/
theorem fetchHotPosts_batch_isolation_witness :
    fetchHotPosts Examples.batchFetch ["technology", "badsub", "movies"] 3 =
      [Examples.rawA].map normalizePost ++ [Examples.rawC].map normalizePost :=
  fetchHotPosts_batch_isolation Examples.batchFetch "technology" "badsub" "movies"
    [Examples.rawA] [Examples.rawC]
    { statusCode := some 404, messageHasRateLimit := false, ratelimitRemaining := none }
    3 rfl rfl rfl rfl rfl

end RedditClient
